import Mathlib

/-!
Verification development for the TuitionDataCollector repository.

The Python sources under src/ are shallowly embedded as executable Lean
definitions:

* records (Python dicts of strings) become association lists
  from field name to string value;
* the classifier functions of src/utils/classifier.py become pure
  functions over strings (modelled as their character lists, lowered
  by mapping Char.toLower, which matches str.lower for the ASCII
  keyword sets used by the code);
* the regular expression of parse_experience_years is compiled by hand
  into a leftmost-match scanner, which is exact for this pattern
  because no alternative of the pattern allows backtracking to change
  the outcome (digits, the optional plus sign and the whitespace run
  are all followed by characters outside their own classes);
* the storage layer of src/utils/storage.py becomes a pure state
  transformer on an explicit file system value; the CSV round trip is
  modelled as the identity on stored rows, and the pandas writer is
  modelled by its observable effect on the written table (column order
  of first appearance, drop_duplicates on the profile_link column with
  missing values considered equal, as pandas does);
* the bulk orchestrator consume loop of src/main.py becomes a
  recursion over the list of task results in completion order, and the
  fetch command becomes a function from its configuration and the
  adapter outcomes to an exit code;
* the credential rotation of src/scraper/google_api_scraper.py becomes
  a fuelled round-robin scan over the key list with an explicit clock
  (times are naturals, read as milliseconds, so the 0.5 second minimum
  sleep of the code is the constant 500).
-/

/-! ## Basic string operations (Python str.lower, str.strip, substring test) -/

/-- Python str.lower, restricted to the per-character mapping; exact for the
ASCII data handled by this program. -/
def strLower (s : String) : String := ⟨s.data.map Char.toLower⟩

/-- The whitespace class of Python (the re module class for spaces and the
default str.strip set, restricted to ASCII). -/
def isPySpace (c : Char) : Bool :=
  c = ' ' || c = '\t' || c = '\n' || c = '\r' || c = '\x0b' || c = '\x0c'

/-- Python str.strip with no argument: remove leading and trailing whitespace. -/
def strTrim (s : String) : String :=
  ⟨((s.data.dropWhile isPySpace).reverse.dropWhile isPySpace).reverse⟩

/-- One pass of Python str.replace over a character list: replace each
non-overlapping occurrence of pat, scanning left to right.  The fuel
argument (instantiated with the input length) makes the recursion
structural; it never runs out for nonempty patterns. -/
def replaceFuel (pat rep : List Char) : Nat → List Char → List Char
  | 0, l => l
  | _, [] => []
  | fuel + 1, c :: t =>
    if pat.isPrefixOf (c :: t) then rep ++ replaceFuel pat rep fuel (List.drop pat.length (c :: t))
    else c :: replaceFuel pat rep fuel t

/-- Python str.replace (all occurrences). -/
def strReplace (s pat rep : String) : String :=
  ⟨replaceFuel pat.data rep.data s.data.length s.data⟩

/-- Substring containment on character lists (the Python infix in test). -/
def containsSubList (hay nd : List Char) : Bool :=
  match hay with
  | [] => nd.isEmpty
  | _ :: t => nd.isPrefixOf hay || containsSubList t nd

/-- Python nd in hay for strings. -/
def strContains (hay nd : String) : Bool := containsSubList hay.data nd.data

/-! ## Records

A Python dict of profile data is an association list from field name to
string value.  dict.get k returns none when the field is missing; the
code patterns x.get(k) or '' and x.get(k, '') both collapse to the
empty-string default for the string-valued records this program builds. -/

/-- A profile record: a Python dict from field names to string values. -/
abbrev Rec := List (String × String)

/-- dict.get: the value of field k, if present (first binding wins). -/
def getField (r : Rec) (k : String) : Option String :=
  (r.find? (fun kv => kv.1 == k)).map (fun kv => kv.2)

/-- dict.get with empty-string default, as in x.get(k) or '' and x.get(k, ''). -/
def getS (r : Rec) (k : String) : String := (getField r k).getD ""

/-! ## src/utils/classifier.py -/

/-- TUTOR_KEYWORDS of src/utils/classifier.py. -/
def TUTOR_KEYWORDS : List String :=
  ["tutor", "teacher", "instructor", "educator", "trainer", "coach",
   "professor", "lecturer", "mentor", "teaching", "teaches", "expert"]

/-- STUDENT_KEYWORDS of src/utils/classifier.py. -/
def STUDENT_KEYWORDS : List String :=
  ["student", "learner", "undergraduate", "graduate", "studying",
   "pursuing", "enrolled", "pupil", "scholar", "learning"]

/-- The tutor keyword tally of classify_role:
sum(1 for keyword in TUTOR_KEYWORDS if keyword in text_lower). -/
def tutorMatches (textLower : String) : Nat :=
  (TUTOR_KEYWORDS.filter (fun k => strContains textLower k)).length

/-- The student keyword tally of classify_role. -/
def studentMatches (textLower : String) : Nat :=
  (STUDENT_KEYWORDS.filter (fun k => strContains textLower k)).length

/-- classify_role of src/utils/classifier.py. -/
def classify_role (text : String) : String :=
  if text = "" then "Unknown"
  else
    let textLower := strLower text
    let t := tutorMatches textLower
    let s := studentMatches textLower
    if t > s then "Tutor"
    else if s > t then "Student"
    else if t > 0 then "Tutor" else "Unknown"

/-- Decimal value of a digit run, as Python int applied to the matched group. -/
def natOfDigits (ds : List Char) : Nat :=
  ds.foldl (fun a c => a * 10 + (c.toNat - '0'.toNat)) 0

/-- The unit alternation (?:years?|yrs?) of the experience regex: the rest of
the input must begin with year or with yr (the optional trailing s never
affects acceptance because nothing follows it in the pattern). -/
def yearUnitAt (cs : List Char) : Bool :=
  ("year".data.isPrefixOf cs) || ("yr".data.isPrefixOf cs)

/-- One anchored attempt of the regex (\d+)\+?\s*(?:years?|yrs?) at the head of
the input: a nonempty maximal digit run, an optional plus sign, a maximal
whitespace run, then a year unit.  Greedy matching is exact here (see the
module comment). -/
def expMatchAt (cs : List Char) : Option Nat :=
  let ds := cs.takeWhile Char.isDigit
  if ds.isEmpty then none
  else
    let rest := cs.drop ds.length
    let rest := match rest with
      | '+' :: r => r
      | r => r
    let rest := rest.dropWhile isPySpace
    if yearUnitAt rest then some (natOfDigits ds) else none

/-- re.search for the experience pattern: the leftmost position where the
anchored attempt succeeds. -/
def searchExp : List Char → Option Nat
  | [] => none
  | c :: t =>
    match expMatchAt (c :: t) with
    | some n => some n
    | none => searchExp t

/-- parse_experience_years of src/utils/classifier.py. -/
def parse_experience_years (s : String) : Option Nat :=
  if s = "" then none
  else searchExp (strLower s).data

/-- filter_tutors_by_experience of src/utils/classifier.py: keep the profiles
whose role field is exactly Tutor and whose parsed experience is known and
strictly below max_years. -/
def filter_tutors_by_experience (data : List Rec) (maxYears : Nat) : List Rec :=
  data.filter (fun p =>
    if getField p "role" ≠ some "Tutor" then false
    else
      match parse_experience_years (getS p "experience") with
      | some y => y < maxYears
      | none => false)

/-- The city list checked against the location field in is_indian_profile. -/
def INDIAN_CITIES_LOC : List String :=
  ["delhi", "new delhi", "mumbai", "bombay", "bangalore", "bengaluru", "chennai", "kolkata",
   "hyderabad", "pune", "ahmedabad", "jaipur", "lucknow", "kanpur", "nagpur", "indore",
   "bhopal", "visakhapatnam", "vizag", "surat", "patna", "vadodara", "gurgaon", "noida",
   "thane", "faridabad", "ghaziabad", "ludhiana", "agra", "nashik", "pimpri", "aurangabad",
   "rajkot", "meerut", "varanasi", "madurai", "coimbatore", "trichy", "tiruchirappalli",
   "mangalore", "kochi", "trivandrum", "thiruvananthapuram", "bhubaneswar", "ranchi",
   "guwahati", "amritsar", "dehradun", "jalandhar", "gwalior", "jodhpur", "raipur"]

/-- The city hints checked against the combined text in is_indian_profile. -/
def TEXT_HINT_CITIES : List String :=
  ["delhi", "mumbai", "bangalore", "bengaluru", "chennai", "kolkata",
   "hyderabad", "pune", "ahmedabad", "jaipur"]

/-- is_indian_profile of src/utils/classifier.py.  The location branch falls
through to the text fallback when it finds nothing, so the function is the
disjunction of the two checks. -/
def is_indian_profile (p : Rec) : Bool :=
  let loc := strTrim (getS p "location")
  (if loc ≠ "" then
     let locL := strLower loc
     strContains locL "india" || INDIAN_CITIES_LOC.any (fun c => strContains locL c)
   else false)
  ||
  (let text := strLower (String.intercalate " "
      [getS p "name", getS p "title", getS p "description"])
   (["india", "indian"].any (fun w => strContains text w))
   || TEXT_HINT_CITIES.any (fun c => strContains text c))

/-! ## src/utils/storage.py -/

/-- The identity key of _dedup_records: the stripped lower-cased profile_link
when nonempty, else the stripped lower-cased name and source joined by a
pipe.  (The object-identity guard of the source for an empty key is dead
code, because the fallback string always contains the pipe character; the
embedding keeps the guard, see dedupGo.) -/
def key_fn (x : Rec) : String :=
  if strLower (strTrim (getS x "profile_link")) ≠ "" then
    strLower (strTrim (getS x "profile_link"))
  else strLower (strTrim (getS x "name")) ++ "|" ++ strLower (strTrim (getS x "source"))

/-- The loop of _dedup_records: keep the first occurrence of every key; an
empty key (unreachable, see key_fn) is kept unconditionally, matching the
fresh object-identity key of the source. -/
def dedupGo (seen : List String) : List Rec → List Rec
  | [] => []
  | x :: rest =>
    if key_fn x = "" then x :: dedupGo seen rest
    else if seen.contains (key_fn x) then dedupGo seen rest
    else x :: dedupGo (key_fn x :: seen) rest

/-- _dedup_records of src/utils/storage.py. -/
def _dedup_records (data : List Rec) : List Rec := dedupGo [] data

/-- The keys of a record, in insertion order. -/
def recKeys (r : Rec) : List String := r.map (fun kv => kv.1)

/-- Remove duplicates from a list of field names, keeping first occurrences
(the effect of collecting the names into a Python set, up to order, which
the subsequent sort cancels). -/
def dedupStrsGo (seen : List String) : List String → List String
  | [] => []
  | x :: t => if seen.contains x then dedupStrsGo seen t else x :: dedupStrsGo (x :: seen) t

/-- All field names appearing across the records, first occurrences first. -/
def allFieldNames (data : List Rec) : List String :=
  dedupStrsGo [] (data.foldl (fun acc r => acc ++ recKeys r) [])

/-- The sorted field-name union computed by the CSV-module path of
save_to_csv: fieldnames = sorted(list(set of all keys)). -/
def unionKeysSorted (data : List Rec) : List String :=
  List.insertionSort (fun a b => a ≤ b) (allFieldNames data)

/-- The column list of a pandas DataFrame built from a list of dicts: field
names in order of first appearance. -/
def firstAppearanceCols (data : List Rec) : List String :=
  data.foldl (fun acc r => r.foldl (fun a kv => if a.contains kv.1 then a else a ++ [kv.1]) acc) []

/-- The subset values a row contributes to drop_duplicates: the optional
value of each subset column.  A missing value is a pandas NaN; pandas
treats NaN values as equal in duplicated, which the none case models. -/
def pandasSubsetVal (subset : List String) (r : Rec) : List (Option String) :=
  subset.map (fun c => getField r c)

/-- drop_duplicates keep-first over the given subset columns. -/
def pandasDropGo (subset : List String) (seen : List (List (Option String))) :
    List Rec → List Rec
  | [] => []
  | r :: rest =>
    if seen.contains (pandasSubsetVal subset r) then pandasDropGo subset seen rest
    else r :: pandasDropGo subset (pandasSubsetVal subset r :: seen) rest

/-- The pandas branch of save_to_csv: drop duplicate rows by profile_link
when that column exists, else by whichever of name and source exist; no
drop when none of the three columns exists. -/
def pandasDrop (data : List Rec) : List Rec :=
  let cols := firstAppearanceCols data
  let keyCols := ["profile_link", "name", "source"].filter (fun c => cols.contains c)
  if keyCols.isEmpty then data
  else
    let subset := if cols.contains "profile_link" then ["profile_link"] else keyCols
    pandasDropGo subset [] data

/-- A written CSV file: the header row and one stored row per record.  The
CSV round trip is modelled as the identity on rows. -/
structure Csv where
  header : List String
  rows : List Rec
deriving DecidableEq

/-- save_to_csv of src/utils/storage.py, as a function from the deduplicated
input to the written file; none models the False return (no write), which
the CSV-module path takes on empty input.  The pandas path writes the
DataFrame with first-appearance column order after its extra
drop_duplicates; the CSV-module path writes the sorted field-name union
and every deduplicated record. -/
def save_to_csv (pandasAvail : Bool) (data : List Rec) : Option Csv :=
  let data := _dedup_records data
  if pandasAvail then
    some ⟨firstAppearanceCols data, pandasDrop data⟩
  else if data.isEmpty then none
  else some ⟨unionKeysSorted data, data⟩

/-- The durable state touched by the persistence layer: the CSV files by
path, and the list of batches inserted into the document store. -/
structure FS where
  files : List (String × Csv)
  mongo : List (List Rec)
deriving DecidableEq

/-- The empty file system: no CSV file exists, nothing inserted. -/
def emptyFS : FS := ⟨[], []⟩

/-- Read the CSV file at a path, if it exists. -/
def readFile (fs : FS) (path : String) : Option Csv :=
  ((fs.files.find? (fun e => e.1 == path)).map (fun e => e.2))

/-- The rows of the CSV file at a path, empty when the file does not exist
(the source reads existing rows inside a try block and continues with the
empty list on failure). -/
def fileRows (fs : FS) (path : String) : List Rec :=
  ((readFile fs path).map Csv.rows).getD []

/-- Write (create or overwrite) the CSV file at a path. -/
def writeFile (fs : FS) (path : String) (c : Csv) : FS :=
  { fs with files := (path, c) :: fs.files.filter (fun e => e.1 != path) }

/-- save_to_csv combined with the file-system effect at the given path. -/
def save_to_csv_fs (pandasAvail : Bool) (fs : FS) (data : List Rec) (path : String) :
    Bool × FS :=
  match save_to_csv pandasAvail data with
  | none => (false, fs)
  | some c => (true, writeFile fs path c)

/-- save_to_mongodb of src/utils/storage.py: a batch insert when the
connection is available, reported failure otherwise. -/
def save_to_mongodb (mongoOk : Bool) (fs : FS) (data : List Rec) : Bool × FS :=
  if mongoOk then (true, { fs with mongo := fs.mongo ++ [data] })
  else (false, fs)

/-- save_data of src/utils/storage.py.  outputPath empty models the Python
None default.  In the role-splitting CSV branch the existing tutor and
student files are read first (only in append mode), each side is merged
and deduplicated, nonempty sides are written, and a batch with no tutor
and no student rows is written undivided to the output path. -/
def save_data (pandasAvail mongoOk : Bool) (fs : FS) (data : List Rec)
    (outputFormat outputPath : String) (separateByRole appendMode : Bool) : Bool × FS :=
  if data.isEmpty then (false, fs)
  else
    let csvRes : Bool × FS :=
      if outputFormat = "csv" ∨ outputFormat = "both" then
        if separateByRole then
          let tutors := data.filter (fun p => strLower (getS p "role") = "tutor")
          let students := data.filter (fun p => strLower (getS p "role") = "student")
          let tutorPath := if outputPath = "" then "data/tutors.csv" else outputPath
          let studentPath :=
            if outputPath = "" then "data/students.csv"
            else strReplace outputPath "tutors" "students"
          let existingTutors := if appendMode then fileRows fs tutorPath else []
          let existingStudents := if appendMode then fileRows fs studentPath else []
          let allTutors := _dedup_records (existingTutors ++ tutors)
          let allStudents := _dedup_records (existingStudents ++ students)
          let resT : Bool × FS :=
            if allTutors.isEmpty then (false, fs)
            else save_to_csv_fs pandasAvail fs allTutors tutorPath
          let resS : Bool × FS :=
            if allStudents.isEmpty then (false, resT.2)
            else save_to_csv_fs pandasAvail resT.2 allStudents studentPath
          let resA : Bool × FS :=
            if tutors.isEmpty && students.isEmpty then
              save_to_csv_fs pandasAvail resS.2 (_dedup_records data)
                (if outputPath = "" then "data/all_profiles.csv" else outputPath)
            else (false, resS.2)
          (resT.1 || resS.1 || resA.1, resA.2)
        else
          save_to_csv_fs pandasAvail fs (_dedup_records data)
            (if outputPath = "" then "data/tutors.csv" else outputPath)
      else (false, fs)
    let mongoRes : Bool × FS :=
      if outputFormat = "mongo" ∨ outputFormat = "both" then save_to_mongodb mongoOk csvRes.2 data
      else (false, csvRes.2)
    (csvRes.1 || mongoRes.1, mongoRes.2)

/-- The tutor rows of a batch, as filtered by save_data. -/
def tutorsOf (data : List Rec) : List Rec :=
  data.filter (fun p => strLower (getS p "role") = "tutor")

/-- The student rows of a batch, as filtered by save_data. -/
def studentsOf (data : List Rec) : List Rec :=
  data.filter (fun p => strLower (getS p "role") = "student")

/-- The merged, deduplicated tutor table save_data builds over the default
paths: existing tutors file contents followed by the new tutor rows. -/
def mergedTutors (fs : FS) (data : List Rec) : List Rec :=
  _dedup_records (fileRows fs "data/tutors.csv" ++ tutorsOf data)

/-- The merged, deduplicated student table over the default paths. -/
def mergedStudents (fs : FS) (data : List Rec) : List Rec :=
  _dedup_records (fileRows fs "data/students.csv" ++ studentsOf data)

/-- The file the CSV-module writer produces for a table. -/
def csvOf (l : List Rec) : Csv :=
  ⟨unionKeysSorted (_dedup_records l), _dedup_records l⟩

/-- The first two writes of the role-splitting CSV branch over the default
paths (tutor table, then student table; each side only when nonempty). -/
def sdSteps (fs : FS) (data : List Rec) : FS :=
  let fs1 :=
    if (mergedTutors fs data).isEmpty then fs
    else writeFile fs "data/tutors.csv" ⟨unionKeysSorted (mergedTutors fs data),
      mergedTutors fs data⟩
  if (mergedStudents fs data).isEmpty then fs1
  else writeFile fs1 "data/students.csv" ⟨unionKeysSorted (mergedStudents fs data),
    mergedStudents fs data⟩

/-! ## src/main.py, bulk command (the consume loop) -/

/-- The identity key computed by profile_key inside bulk; byte for byte the
same computation as key_fn of the storage layer. -/
def profile_key (p : Rec) : String :=
  if strLower (strTrim (getS p "profile_link")) ≠ "" then
    strLower (strTrim (getS p "profile_link"))
  else strLower (strTrim (getS p "name")) ++ "|" ++ strLower (strTrim (getS p "source"))

/-- The configuration of one bulk run (the options of the bulk command that
the consume loop reads, plus the two environment facts the persistence
layer depends on). -/
structure BulkCfg where
  target : Nat
  flushEvery : Nat
  maxExp : Nat
  indiaOnly : Bool
  excludeStudents : Bool
  outputFormat : String
  outputPath : String
  pandasAvail : Bool
  mongoOk : Bool
deriving DecidableEq

/-- The mutable state of the consume loop: the accumulator, the seen-key
set, the count already flushed, the file system, and (for observation) the
successive batches handed to save_data. -/
structure BulkSt where
  collected : List Rec
  seenKeys : List String
  savedTotal : Nat
  fs : FS
  flushed : List (List Rec)
deriving DecidableEq

/-- The initial consume-loop state over a given file system. -/
def initBulkSt (fs : FS) : BulkSt :=
  ⟨[], [], 0, fs, []⟩

/-- The per-profile body of the consume loop: the role-exclusion filter, the
region filter, the experience filter (unknown or at least maxExp years is
dropped), then the seen-key dedup; survivors are appended to the
accumulator. -/
def bulkAccumulate (cfg : BulkCfg) (st : BulkSt) (p : Rec) : BulkSt :=
  if cfg.excludeStudents && (strLower (getS p "role") = "student") then st
  else if cfg.indiaOnly && ¬ is_indian_profile p then st
  else
    match parse_experience_years (getS p "experience") with
    | none => st
    | some years =>
      if years ≥ cfg.maxExp then st
      else
        if profile_key p = "" || st.seenKeys.contains (profile_key p) then st
        else
          { st with
            seenKeys := profile_key p :: st.seenKeys,
            collected := st.collected ++ [p] }

/-- One flush: hand the unflushed tail of the accumulator to save_data in
append mode with role splitting, and mark everything as saved. -/
def doFlush (cfg : BulkCfg) (st : BulkSt) : BulkSt :=
  { st with
    fs := (save_data cfg.pandasAvail cfg.mongoOk st.fs (st.collected.drop st.savedTotal)
        cfg.outputFormat cfg.outputPath true true).2,
    savedTotal := st.collected.length,
    flushed := st.flushed ++ [st.collected.drop st.savedTotal] }

/-- The periodic flush check of the consume loop. -/
def bulkFlush (cfg : BulkCfg) (st : BulkSt) : BulkSt :=
  if st.collected.length - st.savedTotal ≥ cfg.flushEvery then doFlush cfg st else st

/-- The consume loop over completed task results (in completion order): each
batch is filtered and accumulated in full, the periodic flush fires when
due, and the loop breaks once the accumulator has reached the target. -/
def bulkConsume (cfg : BulkCfg) (st : BulkSt) : List (List Rec) → BulkSt
  | [] => st
  | b :: bs =>
    let st1 := b.foldl (bulkAccumulate cfg) st
    let st2 := bulkFlush cfg st1
    if st2.collected.length ≥ cfg.target then st2 else bulkConsume cfg st2 bs

/-- The final flush after the loop: write any unflushed remainder. -/
def bulkFinal (cfg : BulkCfg) (st : BulkSt) : BulkSt :=
  if st.collected.length > st.savedTotal then doFlush cfg st else st

/-- One whole bulk run over the given batch sequence and initial file
system. -/
def bulkRun (cfg : BulkCfg) (fs : FS) (batches : List (List Rec)) : BulkSt :=
  bulkFinal cfg (bulkConsume cfg (initBulkSt fs) batches)

/-! ## src/main.py, fetch command -/

/-- The filter options of the fetch command.  maxExperience and maxSave are
zero when the option is off, matching the Python truthiness test on the
optional integer. -/
structure FetchCfg where
  excludeStudents : Bool
  maxExperience : Nat
  indiaOnly : Bool
  maxSave : Nat
deriving DecidableEq

/-- The filter pipeline of fetch: optional student exclusion, optional
experience filter (filtered tutors first, then the non-tutor remainder,
as the source concatenates them), optional region filter, then the
max-save cap. -/
def applyFetchFilters (cfg : FetchCfg) (results : List Rec) : List Rec :=
  let r1 :=
    if cfg.excludeStudents then
      results.filter (fun p => ¬ getField p "role" = some "Student")
    else results
  let r2 :=
    if cfg.maxExperience ≠ 0 then
      filter_tutors_by_experience r1 cfg.maxExperience
        ++ r1.filter (fun p => ¬ getField p "role" = some "Tutor")
    else r1
  let r3 := if cfg.indiaOnly then r2.filter is_indian_profile else r2
  if cfg.maxSave ≠ 0 ∧ r3.length > cfg.maxSave then r3.take cfg.maxSave else r3

/-- The observable outcome of one fetch run: the process exit status, the
results collected across adapters, and whether the total-results summary
line was printed. -/
structure FetchOutcome where
  exitCode : Nat
  collected : List Rec
  summaryPrinted : Bool
deriving DecidableEq

/-- The fetch command of src/main.py as a function of: whether the source
name is valid, the per-adapter outcomes (none models an adapter that
raised, which the loop catches and skips), the filter options, the
persistence environment, and the save target.  An invalid source exits 1
before scraping; an empty collection or an empty post-filter set exits 0
after the summary; otherwise the run exits 0 exactly when save_data
reports success. -/
def fetch_run (sourceValid : Bool) (scraped : List (Option (List Rec))) (cfg : FetchCfg)
    (pandasAvail mongoOk : Bool) (fs : FS) (outputFormat outputPath : String)
    (append : Bool) : FetchOutcome :=
  if ¬ sourceValid then ⟨1, [], false⟩
  else
    let allResults := scraped.foldl (fun acc r => acc ++ r.getD []) []
    if allResults.isEmpty then ⟨0, allResults, true⟩
    else
      let filtered := applyFetchFilters cfg allResults
      if filtered.isEmpty then ⟨0, allResults, true⟩
      else
        if (save_data pandasAvail mongoOk fs filtered outputFormat
            (if outputPath = "" then "data/tutors.csv" else outputPath) true append).1
        then ⟨0, allResults, true⟩ else ⟨1, allResults, true⟩

/-! ## src/scraper/google_api_scraper.py, get_next_api_key

Times are naturals read as milliseconds; the 0.5 second minimum sleep of
the source is the constant 500, and the one second placeholder deadline
for an empty backoff map is the constant 1000. -/

/-- The credential-rotation state of a GoogleAPISearcher instance. -/
structure ApiState where
  apiKeys : List String
  searchEngineIds : List String
  currentKeyIndex : Nat
  keyBackoffUntil : List (Nat × Nat)
deriving DecidableEq

/-- self backoff-until lookup with default 0 (a key never failed is ready). -/
def lookupBackoff (m : List (Nat × Nat)) (i : Nat) : Nat :=
  (((m.find? (fun e => e.1 == i)).map (fun e => e.2)).getD 0)

/-- The engine id paired with a key index: the id at the same index, clamped
to the last one when fewer ids than keys are configured. -/
def engineFor (cxs : List String) (idx : Nat) : String :=
  cxs.getD (min idx (cxs.length - 1)) ""

/-- The round-robin scan of get_next_api_key: up to fuel attempts, starting
at cur; each attempt advances the index, and the first key whose backoff
deadline has passed is returned together with its index and the advanced
rotation index. -/
def rotateTry (keys cxs : List String) (backoff : List (Nat × Nat)) (now : Nat) :
    Nat → Nat → Option (String × String × Nat × Nat)
  | _, 0 => none
  | cur, fuel + 1 =>
    let idx := cur
    let untilT := lookupBackoff backoff idx
    let cur2 := (cur + 1) % keys.length
    if now ≥ untilT then some (keys.getD idx "", engineFor cxs idx, idx, cur2)
    else rotateTry keys cxs backoff now cur2 fuel

/-- The result of get_next_api_key: the returned credential (key, engine id,
index), the rotation index afterwards, and the sleep performed, if any. -/
structure GetKeyOut where
  result : Option (String × String × Nat)
  newIndex : Nat
  slept : Option Nat
deriving DecidableEq

/-- get_next_api_key of src/scraper/google_api_scraper.py.  With no key
configured the result is none.  Otherwise the round-robin scan tries every
key once; if none is ready the function sleeps until the earliest backoff
deadline (at least 500), then returns the key at the rotation index, which
has cycled back to its starting value, without rechecking its backoff. -/
def get_next_api_key (st : ApiState) (now : Nat) : GetKeyOut :=
  if st.apiKeys.isEmpty then ⟨none, st.currentKeyIndex, none⟩
  else
    match rotateTry st.apiKeys st.searchEngineIds st.keyBackoffUntil now
        st.currentKeyIndex st.apiKeys.length with
    | some (k, cx, idx, cur2) => ⟨some (k, cx, idx), cur2, none⟩
    | none =>
      let nextReady :=
        match (st.keyBackoffUntil.map (fun e => e.2)).min? with
        | some v => v
        | none => now + 1000
      let sleepFor := max 500 (nextReady - now)
      let idx := (st.currentKeyIndex + st.apiKeys.length) % st.apiKeys.length
      ⟨some (st.apiKeys.getD idx "", engineFor st.searchEngineIds idx, idx), idx,
        some sleepFor⟩

/-! ## The loop invariant of the bulk consume loop

Stated over the default bulk configuration (CSV output to the default
paths, CSV-module writer): the flushed batches are exactly the saved
prefix of the accumulator and the accumulator has pairwise distinct
identity keys mirrored by the seen-set — these parts hold for every run;
and, conditionally on every accumulated listing being classified tutor
or student, the two role files hold exactly the corresponding rows of
the saved prefix. -/

/-- Invariant carried through the consume loop (see section comment). -/
def bulkInv (st : BulkSt) : Prop :=
  st.savedTotal ≤ st.collected.length
  ∧ st.flushed.flatten = st.collected.take st.savedTotal
  ∧ (st.collected.map key_fn).Nodup
  ∧ (∀ k, k ∈ st.seenKeys ↔ k ∈ st.collected.map key_fn)
  ∧ ((∀ p ∈ st.collected,
        strLower (getS p "role") = "tutor" ∨ strLower (getS p "role") = "student") →
      fileRows st.fs "data/tutors.csv" = tutorsOf (st.collected.take st.savedTotal)
      ∧ fileRows st.fs "data/students.csv" = studentsOf (st.collected.take st.savedTotal))

/-! ## Concrete inputs used by counterexamples and witnesses -/

/-- A pre-existing tutors file row with no profile link (identity key a|s). -/
def rowA : Rec := [("name", "a"), ("source", "s")]

/-- A second link-less pre-existing row (identity key b|s). -/
def rowB : Rec := [("name", "b"), ("source", "s")]

/-- A pre-existing row carrying a profile link. -/
def rowX : Rec := [("profile_link", "x"), ("name", "c"), ("source", "s")]

/-- A tutor whose raw profile link lowers to the same identity key as rowB. -/
def tutorPipe : Rec :=
  [("profile_link", "B|S"), ("name", "z"), ("source", "z"), ("role", "Tutor")]

/-- A tutors file holding the three pre-existing rows (reachable, for
example, by a prior run with the CSV-module writer). -/
def fsPre : FS :=
  ⟨[("data/tutors.csv", ⟨["name", "source", "profile_link"], [rowA, rowB, rowX]⟩)], []⟩

/-- A filter-surviving tutor listing. -/
def tutorRec : Rec := [("profile_link", "l1"), ("role", "Tutor"), ("experience", "3 years")]

/-- A filter-surviving listing whose role is Unknown. -/
def unknownRec : Rec := [("profile_link", "l2"), ("role", "Unknown"), ("experience", "3 years")]

/-- A bulk configuration flushing after every new profile (CSV-module
writer, region filter off). -/
def cfgFlushOne : BulkCfg := ⟨100, 1, 5, false, true, "csv", "data/tutors.csv", false, false⟩

/-- Two distinct filter-surviving tutors for the overshoot scenario. -/
def tutorA : Rec := [("profile_link", "a1"), ("role", "Tutor"), ("experience", "3 years")]

/-- Second tutor of the overshoot scenario. -/
def tutorB : Rec := [("profile_link", "a2"), ("role", "Tutor"), ("experience", "2 years")]

/-- A bulk configuration with target one and a large flush threshold. -/
def cfgTargetOne : BulkCfg := ⟨1, 100, 5, false, true, "csv", "data/tutors.csv", false, false⟩

/-- A rotation state whose two keys are both cooling down at time 1000. -/
def apiBothCooling : ApiState := ⟨["k0", "k1"], ["c0", "c1"], 0, [(0, 10000), (1, 5000)]⟩

/-- A rotation state with a single, ready key. -/
def apiOneReady : ApiState := ⟨["k0"], ["c0"], 0, []⟩

/-! ## Helper lemmas about the deduplication machinery -/

/-- The identity key is never the empty string: the fallback form always
contains the pipe separator, so the object-identity guard of the source is
dead code. -/
theorem key_fn_ne_empty (x : Rec) : key_fn x ≠ "" := by
  unfold key_fn
  by_cases h : strLower (strTrim (getS x "profile_link")) = ""
  · rw [if_neg (fun hn => hn h)]
    intro hc
    have h2 := congrArg String.data hc
    simp at h2
  · rw [if_pos h]
    exact h

/-- Membership in the keys of a deduplicated list: exactly the keys of the
input that are not already seen. -/
theorem mem_map_key_dedupGo (l : List Rec) (s : List String) (k : String) :
    k ∈ (dedupGo s l).map key_fn ↔ k ∈ l.map key_fn ∧ k ∉ s := by
  induction l generalizing s with
  | nil => simp [dedupGo]
  | cons x t ih =>
    simp only [dedupGo, key_fn_ne_empty x, if_false]
    by_cases hc : s.contains (key_fn x)
    · have hmem : key_fn x ∈ s := by simpa using hc
      rw [if_pos hc]
      simp only [ih, List.map_cons, List.mem_cons]
      by_cases hk : k = key_fn x <;> subst_vars <;> tauto
    · have hmem : key_fn x ∉ s := by simpa using hc
      rw [if_neg hc]
      simp only [List.map_cons, List.mem_cons, ih, not_or]
      by_cases hk : k = key_fn x <;> subst_vars <;> tauto

/-- The keys of a deduplicated list are pairwise distinct. -/
theorem nodup_map_key_dedupGo (l : List Rec) (s : List String) :
    ((dedupGo s l).map key_fn).Nodup := by
  induction l generalizing s with
  | nil => simp [dedupGo]
  | cons x t ih =>
    simp only [dedupGo, key_fn_ne_empty x, if_false]
    by_cases hc : s.contains (key_fn x)
    · rw [if_pos hc]; exact ih s
    · rw [if_neg hc]
      simp only [List.map_cons, List.nodup_cons]
      refine ⟨fun hmem => ?_, ih _⟩
      have := (mem_map_key_dedupGo t (key_fn x :: s) (key_fn x)).mp hmem
      exact this.2 (List.mem_cons_self _ _)

/-- A list whose keys are distinct and disjoint from the seen set is left
unchanged by the dedup loop. -/
theorem dedupGo_eq_self (l : List Rec) (s : List String)
    (h1 : (l.map key_fn).Nodup) (h2 : ∀ k ∈ l.map key_fn, k ∉ s) :
    dedupGo s l = l := by
  induction l generalizing s with
  | nil => simp [dedupGo]
  | cons x t ih =>
    simp only [dedupGo, key_fn_ne_empty x, if_false]
    have hns : ¬ s.contains (key_fn x) := by
      simpa using h2 (key_fn x) (by simp)
    rw [if_neg hns]
    simp only [List.map_cons, List.nodup_cons] at h1
    refine congrArg (x :: ·) (ih (key_fn x :: s) h1.2 ?_)
    intro k hk hmem
    rcases List.mem_cons.mp hmem with h | h
    · exact h1.1 (h ▸ hk)
    · exact h2 k (List.mem_cons_of_mem _ hk) h

/-- When every key of the input is already seen, the dedup loop drops
everything. -/
theorem dedupGo_eq_nil (l : List Rec) (s : List String)
    (h : ∀ p ∈ l, key_fn p ∈ s) : dedupGo s l = [] := by
  induction l with
  | nil => simp [dedupGo]
  | cons x t ih =>
    simp only [dedupGo, key_fn_ne_empty x, if_false]
    have hc : s.contains (key_fn x) := by
      simpa using h x (List.mem_cons_self _ _)
    rw [if_pos hc]
    exact ih (fun p hp => h p (List.mem_cons_of_mem _ hp))

/-- Appending records whose keys are all already present (in the seen set or
in the first part) does not change the dedup result. -/
theorem dedupGo_append_absorb (l₁ l₂ : List Rec) (s : List String)
    (h : ∀ p ∈ l₂, key_fn p ∈ s ∨ key_fn p ∈ l₁.map key_fn) :
    dedupGo s (l₁ ++ l₂) = dedupGo s l₁ := by
  induction l₁ generalizing s with
  | nil =>
    simp only [List.nil_append, dedupGo]
    exact dedupGo_eq_nil l₂ s (fun p hp => by
      rcases h p hp with h1 | h1
      · exact h1
      · simp at h1)
  | cons x t ih =>
    simp only [List.cons_append, dedupGo, key_fn_ne_empty x, if_false]
    by_cases hc : s.contains (key_fn x)
    · rw [if_pos hc, if_pos hc]
      refine ih s (fun p hp => ?_)
      rcases h p hp with h1 | h1
      · exact Or.inl h1
      · rw [List.map_cons] at h1
        rcases List.mem_cons.mp h1 with h2 | h2
        · exact Or.inl (h2 ▸ (by simpa using hc))
        · exact Or.inr h2
    · rw [if_neg hc, if_neg hc]
      refine congrArg (x :: ·) (ih (key_fn x :: s) (fun p hp => ?_))
      rcases h p hp with h1 | h1
      · exact Or.inl (List.mem_cons_of_mem _ h1)
      · rw [List.map_cons] at h1
        rcases List.mem_cons.mp h1 with h2 | h2
        · exact Or.inl (by simp [h2])
        · exact Or.inr h2

/-- _dedup_records leaves a list with distinct keys unchanged. -/
theorem dedup_records_eq_self (l : List Rec) (h : (l.map key_fn).Nodup) :
    _dedup_records l = l :=
  dedupGo_eq_self l [] h (by simp)

/-- _dedup_records is idempotent. -/
theorem dedup_records_idem (l : List Rec) :
    _dedup_records (_dedup_records l) = _dedup_records l :=
  dedup_records_eq_self _ (nodup_map_key_dedupGo l [])

/-- Re-appending an already merged batch is absorbed by _dedup_records: the
deduplicated merge of previous contents and a batch, merged again with the
same batch, is unchanged.  This is the algebraic heart of the append-path
idempotence. -/
theorem dedup_records_absorb (e t : List Rec) :
    _dedup_records (_dedup_records (e ++ t) ++ t) = _dedup_records (e ++ t) := by
  unfold _dedup_records
  rw [dedupGo_append_absorb _ t []]
  · exact dedupGo_eq_self _ [] (nodup_map_key_dedupGo _ []) (by simp)
  · intro p hp
    refine Or.inr ?_
    rw [mem_map_key_dedupGo]
    refine ⟨?_, by simp⟩
    rw [List.map_append]
    exact List.mem_append_right _ (List.mem_map_of_mem _ hp)

/-- _dedup_records of a nonempty list is nonempty (the first record always
survives). -/
theorem dedup_records_ne_nil (x : Rec) (t : List Rec) :
    _dedup_records (x :: t) ≠ [] := by
  unfold _dedup_records
  simp only [dedupGo, key_fn_ne_empty x, if_false]
  have : ¬ ([] : List String).contains (key_fn x) := by simp
  rw [if_neg this]
  simp

/-! ## Helper lemmas about the file system and the header computation -/

/-- Reading back the path just written yields the written file. -/
theorem readFile_writeFile_self (fs : FS) (p : String) (c : Csv) :
    readFile (writeFile fs p c) p = some c := by
  simp [readFile, writeFile, List.find?]

/-- Finding a path other than the filtered one is unaffected by the filter. -/
theorem find?_filter_ne (p q : String) (h : q ≠ p) (l : List (String × Csv)) :
    List.find? (fun e => e.1 == q) (l.filter (fun e => e.1 != p))
      = List.find? (fun e => e.1 == q) l := by
  induction l with
  | nil => rfl
  | cons e t ih =>
    by_cases hp' : e.1 = p
    · have h2 : ((e.1 == q) = false) := by
        subst hp'
        simpa using fun hc => h hc.symm
      rw [List.filter_cons, if_neg (by simp [hp']), ih]
      simp [List.find?_cons, h2]
    · rw [List.filter_cons, if_pos (by simp [hp'])]
      by_cases hq' : ((e.1 == q) = true)
      · simp [List.find?_cons, hq']
      · simp only [List.find?_cons, Bool.not_eq_true] at hq' ⊢
        rw [hq']
        simpa using ih

/-- Writing one path leaves every other path unchanged. -/
theorem readFile_writeFile_ne (fs : FS) (p q : String) (c : Csv) (h : q ≠ p) :
    readFile (writeFile fs p c) q = readFile fs q := by
  simp only [readFile, writeFile]
  rw [List.find?_cons_of_neg _ (by simpa using fun hc : p = q => h hc.symm),
    find?_filter_ne p q h fs.files]

/-- fileRows after a write at the same path. -/
theorem fileRows_writeFile_self (fs : FS) (p : String) (c : Csv) :
    fileRows (writeFile fs p c) p = c.rows := by
  simp [fileRows, readFile_writeFile_self]

/-- fileRows after a write at a different path. -/
theorem fileRows_writeFile_ne (fs : FS) (p q : String) (c : Csv) (h : q ≠ p) :
    fileRows (writeFile fs p c) q = fileRows fs q := by
  simp [fileRows, readFile_writeFile_ne fs p q c h]

/-- Membership in the first-occurrence dedup of field names. -/
theorem mem_dedupStrsGo (l s : List String) (k : String) :
    k ∈ dedupStrsGo s l ↔ k ∈ l ∧ k ∉ s := by
  induction l generalizing s with
  | nil => simp [dedupStrsGo]
  | cons x t ih =>
    simp only [dedupStrsGo]
    by_cases hc : s.contains x
    · have hmem : x ∈ s := by simpa using hc
      rw [if_pos hc]
      simp only [ih, List.mem_cons]
      by_cases hk : k = x <;> subst_vars <;> tauto
    · have hmem : x ∉ s := by simpa using hc
      rw [if_neg hc]
      simp only [List.mem_cons, ih, not_or]
      by_cases hk : k = x <;> subst_vars <;> tauto

/-- Membership in the accumulated key list of all records. -/
theorem mem_foldl_recKeys (data : List Rec) (acc : List String) (k : String) :
    k ∈ data.foldl (fun acc r => acc ++ recKeys r) acc
      ↔ k ∈ acc ∨ ∃ r ∈ data, k ∈ recKeys r := by
  induction data generalizing acc with
  | nil => simp
  | cons r t ih =>
    simp only [List.foldl_cons, ih, List.mem_append, List.mem_cons]
    constructor
    · rintro (⟨h | h⟩ | ⟨r', hr', hk⟩)
      · exact Or.inl h
      · exact Or.inr ⟨r, Or.inl rfl, h⟩
      · exact Or.inr ⟨r', Or.inr hr', hk⟩
    · rintro (h | ⟨r', hr' | hr', hk⟩)
      · exact Or.inl (Or.inl h)
      · exact Or.inl (Or.inr (hr' ▸ hk))
      · exact Or.inr ⟨r', hr', hk⟩

/-- Membership in the sorted field-name union: exactly the field names of
the given records. -/
theorem mem_unionKeysSorted (data : List Rec) (k : String) :
    k ∈ unionKeysSorted data ↔ ∃ r ∈ data, k ∈ recKeys r := by
  unfold unionKeysSorted allFieldNames
  rw [(List.perm_insertionSort _ _).mem_iff, mem_dedupStrsGo, mem_foldl_recKeys]
  simp

/-- The sorted field-name union is sorted by the string order. -/
theorem sorted_unionKeysSorted (data : List Rec) :
    List.Pairwise (fun a b => a ≤ b) (unionKeysSorted data) :=
  List.sorted_insertionSort _ _

/-! ## Claim C3: classify_role -/

/-- C3: classify_role is a (deterministic) function of the input text and
satisfies: empty text yields Unknown; a text whose lowered form contains
some tutor keyword and no student keyword yields Tutor; a text containing
some student keyword and no tutor keyword yields Student; equal nonzero
keyword tallies yield Tutor; two zero tallies yield Unknown. -/
theorem C3_classify_role_cases :
    classify_role "" = "Unknown"
    ∧ (∀ text : String,
        (∃ k ∈ TUTOR_KEYWORDS, strContains (strLower text) k = true) →
        (∀ k ∈ STUDENT_KEYWORDS, strContains (strLower text) k = false) →
        classify_role text = "Tutor")
    ∧ (∀ text : String,
        (∃ k ∈ STUDENT_KEYWORDS, strContains (strLower text) k = true) →
        (∀ k ∈ TUTOR_KEYWORDS, strContains (strLower text) k = false) →
        classify_role text = "Student")
    ∧ (∀ text : String,
        tutorMatches (strLower text) = studentMatches (strLower text) →
        tutorMatches (strLower text) ≠ 0 → classify_role text = "Tutor")
    ∧ (∀ text : String,
        tutorMatches (strLower text) = 0 → studentMatches (strLower text) = 0 →
        classify_role text = "Unknown") := by
  have hT0 : ∀ k ∈ TUTOR_KEYWORDS, strContains (strLower "") k = false := by decide
  have hS0 : ∀ k ∈ STUDENT_KEYWORDS, strContains (strLower "") k = false := by decide
  refine ⟨rfl, ?_, ?_, ?_, ?_⟩
  · intro text ⟨k, hk, hck⟩ hs
    have hne : text ≠ "" := by
      intro h
      rw [h] at hck
      rw [hT0 k hk] at hck
      exact Bool.false_ne_true hck
    have ht : 0 < tutorMatches (strLower text) := by
      have : k ∈ TUTOR_KEYWORDS.filter (fun k => strContains (strLower text) k) :=
        List.mem_filter.mpr ⟨hk, hck⟩
      exact List.length_pos.mpr (fun hnil => by simp [hnil] at this)
    have hsz : studentMatches (strLower text) = 0 := by
      unfold studentMatches
      rw [List.length_eq_zero, List.filter_eq_nil_iff]
      intro k hk2
      simp [hs k hk2]
    unfold classify_role
    rw [if_neg hne]
    have hgt : tutorMatches (strLower text) > studentMatches (strLower text) := by
      omega
    rw [if_pos hgt]
  · intro text ⟨k, hk, hck⟩ hs
    have hne : text ≠ "" := by
      intro h
      rw [h] at hck
      rw [hS0 k hk] at hck
      exact Bool.false_ne_true hck
    have ht : 0 < studentMatches (strLower text) := by
      have : k ∈ STUDENT_KEYWORDS.filter (fun k => strContains (strLower text) k) :=
        List.mem_filter.mpr ⟨hk, hck⟩
      exact List.length_pos.mpr (fun hnil => by simp [hnil] at this)
    have hsz : tutorMatches (strLower text) = 0 := by
      unfold tutorMatches
      rw [List.length_eq_zero, List.filter_eq_nil_iff]
      intro k hk2
      simp [hs k hk2]
    unfold classify_role
    rw [if_neg hne]
    have h1 : ¬ tutorMatches (strLower text) > studentMatches (strLower text) := by omega
    have h2 : studentMatches (strLower text) > tutorMatches (strLower text) := by omega
    rw [if_neg h1, if_pos h2]
  · intro text heq hnz
    have hne : text ≠ "" := by
      intro h
      rw [h] at hnz
      exact hnz (by decide)
    unfold classify_role
    rw [if_neg hne]
    have h1 : ¬ tutorMatches (strLower text) > studentMatches (strLower text) := by omega
    have h2 : ¬ studentMatches (strLower text) > tutorMatches (strLower text) := by omega
    rw [if_neg h1, if_neg h2, if_pos (by omega)]
  · intro text ht hs
    by_cases hne : text = ""
    · rw [hne]; rfl
    · unfold classify_role
      rw [if_neg hne]
      have h1 : ¬ tutorMatches (strLower text) > studentMatches (strLower text) := by omega
      have h2 : ¬ studentMatches (strLower text) > tutorMatches (strLower text) := by omega
      rw [if_neg h1, if_neg h2, if_neg (by omega)]

/-- Witness for C3: the theorem applied to the concrete text math tutor,
whose lowered form contains the tutor keyword and no student keyword. -/
theorem C3_classify_role_cases_witness :
    (∃ k ∈ TUTOR_KEYWORDS, strContains (strLower "math tutor") k = true)
    ∧ classify_role "math tutor" = "Tutor" :=
  ⟨⟨"tutor", by decide, by decide⟩,
    C3_classify_role_cases.2.1 "math tutor" ⟨"tutor", by decide, by decide⟩ (by decide)⟩

/-! ## Claim C4: parse_experience_years -/

/-- C4 is false as stated: the claim says any string lacking a leading digit
sequence yields absent, but the regex is searched, not anchored, so the
string over 3 yrs has no leading digit yet parses to 3. -/
theorem C4_counterexample :
    parse_experience_years "over 3 yrs" = some 3
    ∧ ("over 3 yrs").data.takeWhile Char.isDigit = [] := by
  constructor
  · rfl
  · decide

/-- The scanner finds nothing in a digit-free input. -/
theorem searchExp_eq_none_of_no_digit (cs : List Char)
    (h : ∀ c ∈ cs, ¬ c.isDigit) : searchExp cs = none := by
  induction cs with
  | nil => rfl
  | cons c t ih =>
    have hc : c.isDigit = false :=
      Bool.not_eq_true _ ▸ h c (List.mem_cons_self _ _)
    have hmatch : expMatchAt (c :: t) = none := by
      unfold expMatchAt
      rw [List.takeWhile_cons, hc]
      simp
    simp only [searchExp, hmatch]
    exact ih (fun c' hc' => h c' (List.mem_cons_of_mem _ hc'))

/-- C4 (amended): the three spec equations hold, and the parser is absent
exactly on strings with no occurrence of the digits-unit pattern: in
particular any digit-free input yields absent; but the extracted integer
is the leftmost one followed by an optional plus and a year unit, not
necessarily a leading one (over 3 yrs parses to 3). -/
theorem C4_amended :
    parse_experience_years "10+ years" = some 10
    ∧ parse_experience_years "experienced" = none
    ∧ parse_experience_years "3 yrs" = some 3
    ∧ (∀ cs : List Char, (∀ c ∈ cs, ¬ c.isDigit) → searchExp cs = none)
    ∧ parse_experience_years "over 3 yrs" = some 3 :=
  ⟨rfl, rfl, rfl, searchExp_eq_none_of_no_digit, rfl⟩

/-- Witness for C4: the universally quantified conjunct applied at a
concrete digit-free character list. -/
theorem C4_amended_witness :
    (∀ c ∈ ['y', 'r', 's'], ¬ c.isDigit) ∧ searchExp ['y', 'r', 's'] = none :=
  ⟨by decide, C4_amended.2.2.2.1 ['y', 'r', 's'] (by decide)⟩

/-! ## Claim C5: filter composition -/

/-- C5: a Tutor whose experience parses to 6 years is dropped by the fetch
experience filter with bound 5 and by the bulk accumulate step with bound
5; a listing whose role is Student is dropped by the bulk accumulate step
whenever exclude_students is set, regardless of experience; and a listing
whose experience does not parse is always dropped by the bulk accumulate
step. -/
theorem C5_filter_composition :
    (∀ (data : List Rec) (p : Rec), getField p "role" = some "Tutor" →
        parse_experience_years (getS p "experience") = some 6 →
        p ∉ filter_tutors_by_experience data 5)
    ∧ (∀ (cfg : BulkCfg) (st : BulkSt) (p : Rec), cfg.maxExp = 5 →
        parse_experience_years (getS p "experience") = some 6 →
        bulkAccumulate cfg st p = st)
    ∧ (∀ (cfg : BulkCfg) (st : BulkSt) (p : Rec), cfg.excludeStudents = true →
        getS p "role" = "Student" →
        bulkAccumulate cfg st p = st)
    ∧ (∀ (cfg : BulkCfg) (st : BulkSt) (p : Rec),
        parse_experience_years (getS p "experience") = none →
        bulkAccumulate cfg st p = st) := by
  refine ⟨?_, ?_, ?_, ?_⟩
  · intro data p hrole hexp hmem
    have := (List.mem_filter.mp hmem).2
    rw [if_neg (by simp [hrole])] at this
    rw [hexp] at this
    simp at this
  · intro cfg st p hmax hexp
    unfold bulkAccumulate
    by_cases h1 : (cfg.excludeStudents && (strLower (getS p "role") = "student")) = true
    · rw [if_pos h1]
    · rw [if_neg h1]
      by_cases h2 : (cfg.indiaOnly && ¬ is_indian_profile p) = true
      · rw [if_pos h2]
      · rw [if_neg h2, hexp, hmax]
        norm_num
  · intro cfg st p hexc hrole
    unfold bulkAccumulate
    rw [if_pos (by rw [hexc, hrole]; decide)]
  · intro cfg st p hexp
    unfold bulkAccumulate
    by_cases h1 : (cfg.excludeStudents && (strLower (getS p "role") = "student")) = true
    · rw [if_pos h1]
    · rw [if_neg h1]
      by_cases h2 : (cfg.indiaOnly && ¬ is_indian_profile p) = true
      · rw [if_pos h2]
      · rw [if_neg h2, hexp]

/-- Witness for C5: the theorem applied to a concrete six-year tutor. -/
theorem C5_filter_composition_witness :
    getField [("role", "Tutor"), ("experience", "6 years")] "role" = some "Tutor"
    ∧ [("role", "Tutor"), ("experience", "6 years")]
        ∉ filter_tutors_by_experience [[("role", "Tutor"), ("experience", "6 years")]] 5 :=
  ⟨by decide,
    C5_filter_composition.1 [[("role", "Tutor"), ("experience", "6 years")]]
      [("role", "Tutor"), ("experience", "6 years")] (by decide) (by decide)⟩

/-! ## Claim C10: save_data on an empty batch -/

/-- C10: saving an empty batch returns False and performs no write at all:
the file system, including the document-store insert log, is returned
unchanged. -/
theorem C10_save_data_empty (pandasAvail mongoOk : Bool) (fs : FS)
    (outputFormat outputPath : String) (separateByRole appendMode : Bool) :
    save_data pandasAvail mongoOk fs [] outputFormat outputPath separateByRole appendMode
      = (false, fs) := by
  rfl

/-! ## Claim C7: the CSV header and rows -/

/-- C7 is false as stated: under the pandas writer (the default when pandas
imports) the header is the field names in first-appearance order, not
sorted; a record listing b before a is written with header [b, a]. -/
theorem C7_counterexample :
    save_to_csv true [[("b", "1"), ("a", "2")]]
      = some ⟨["b", "a"], [[("b", "1"), ("a", "2")]]⟩
    ∧ ¬ List.Pairwise (fun x y : String => x ≤ y) ["b", "a"] := by
  refine ⟨rfl, fun hp => ?_⟩
  have h1 : ("b" : String) ≤ "a" := (List.pairwise_cons.mp hp).1 "a" (by simp)
  rw [String.le_iff_toList_le] at h1
  revert h1
  decide

/-- C7 (amended): under the CSV-module writer (pandas unavailable or
disabled) every produced file has the sorted union of the field names of
the written records as its header, and exactly one row per deduplicated
listing. -/
theorem C7_amended (data : List Rec) (h : data ≠ []) :
    save_to_csv false data
      = some ⟨unionKeysSorted (_dedup_records data), _dedup_records data⟩
    ∧ List.Pairwise (fun a b : String => a ≤ b) (unionKeysSorted (_dedup_records data))
    ∧ (∀ k, k ∈ unionKeysSorted (_dedup_records data)
        ↔ ∃ r ∈ _dedup_records data, k ∈ recKeys r) := by
  refine ⟨?_, sorted_unionKeysSorted _, fun k => mem_unionKeysSorted _ k⟩
  unfold save_to_csv
  have hne : ¬ ((_dedup_records data).isEmpty = true) := by
    obtain ⟨x, t, rfl⟩ := List.exists_cons_of_ne_nil h
    simpa [List.isEmpty_iff] using dedup_records_ne_nil x t
  simp only [Bool.false_eq_true, if_false, hne]

/-- Witness for C7: the amended theorem applied to a concrete one-record
batch. -/
theorem C7_amended_witness :
    ([[("b", "1"), ("a", "2")]] : List Rec) ≠ []
    ∧ save_to_csv false [[("b", "1"), ("a", "2")]]
        = some ⟨unionKeysSorted (_dedup_records [[("b", "1"), ("a", "2")]]),
                _dedup_records [[("b", "1"), ("a", "2")]]⟩ :=
  ⟨by decide, (C7_amended [[("b", "1"), ("a", "2")]] (by decide)).1⟩

/-! ## Claim C8: credential rotation -/

/-- C8 is false in its last part: with both keys cooling down at time 1000,
get_next_api_key sleeps until the earliest deadline (4000 ms) and then
returns key k0, whose backoff deadline 10000 has still not passed. -/
theorem C8_counterexample :
    get_next_api_key apiBothCooling 1000
      = ⟨some ("k0", "c0", 0), 0, some 4000⟩
    ∧ 1000 < lookupBackoff apiBothCooling.keyBackoffUntil 0
    ∧ 1000 + 4000 < lookupBackoff apiBothCooling.keyBackoffUntil 0 := by
  refine ⟨by rfl, by decide, by decide⟩

/-- Soundness of the round-robin scan: a returned credential has an expired
backoff, is the key at the returned index, and leaves the rotation index
just after that key. -/
theorem rotateTry_some_props (keys cxs : List String) (backoff : List (Nat × Nat))
    (now : Nat) :
    ∀ (fuel cur : Nat), cur < keys.length →
      ∀ k cx idx cur2, rotateTry keys cxs backoff now cur fuel = some (k, cx, idx, cur2) →
        idx < keys.length ∧ lookupBackoff backoff idx ≤ now
        ∧ k = keys.getD idx "" ∧ cx = engineFor cxs idx
        ∧ cur2 = (idx + 1) % keys.length := by
  intro fuel
  induction fuel with
  | zero => intro cur hcur k cx idx cur2 h; exact absurd h (by simp [rotateTry])
  | succ n ih =>
    intro cur hcur k cx idx cur2 h
    unfold rotateTry at h
    by_cases hge : now ≥ lookupBackoff backoff cur
    · rw [if_pos hge] at h
      injection h with h'
      simp only [Prod.mk.injEq] at h'
      obtain ⟨rfl, rfl, rfl, rfl⟩ := h'
      exact ⟨hcur, hge, rfl, rfl, rfl⟩
    · rw [if_neg hge] at h
      exact ih ((cur + 1) % keys.length)
        (Nat.mod_lt _ (lt_of_le_of_lt (Nat.zero_le cur) hcur)) k cx idx cur2 h

/-- Completeness of the round-robin scan: if some position reachable within
the fuel has an expired backoff, the scan succeeds. -/
theorem rotateTry_isSome (keys cxs : List String) (backoff : List (Nat × Nat))
    (now : Nat) :
    ∀ (fuel cur : Nat), cur < keys.length →
      (∃ j < fuel, lookupBackoff backoff ((cur + j) % keys.length) ≤ now) →
      (rotateTry keys cxs backoff now cur fuel).isSome := by
  intro fuel
  induction fuel with
  | zero => intro cur hcur ⟨j, hj, _⟩; omega
  | succ n ih =>
    intro cur hcur ⟨j, hj, hle⟩
    unfold rotateTry
    by_cases hge : now ≥ lookupBackoff backoff cur
    · rw [if_pos hge]; rfl
    · rw [if_neg hge]
      have hpos : 0 < keys.length := lt_of_le_of_lt (Nat.zero_le cur) hcur
      have hj0 : j ≠ 0 := by
        intro h0
        rw [h0, Nat.add_zero, Nat.mod_eq_of_lt hcur] at hle
        exact hge hle
      obtain ⟨j', rfl⟩ := Nat.exists_eq_succ_of_ne_zero hj0
      refine ih ((cur + 1) % keys.length) (Nat.mod_lt _ hpos) ⟨j', by omega, ?_⟩
      rw [Nat.mod_add_mod]
      have : cur + 1 + j' = cur + (j' + 1) := by omega
      rw [this]
      exact hle

/-- Every index below n is reached by the rotation within n steps. -/
theorem rotate_reach (cur i n : Nat) (hcur : cur < n) (hi : i < n) :
    ∃ j, j < n ∧ (cur + j) % n = i := by
  have hpos : 0 < n := lt_of_le_of_lt (Nat.zero_le _) hi
  refine ⟨(i + (n - cur)) % n, Nat.mod_lt _ hpos, ?_⟩
  rw [Nat.add_mod_mod]
  have h2 : cur + (i + (n - cur)) = i + n := by omega
  rw [h2, Nat.add_mod_right]
  exact Nat.mod_eq_of_lt hi

/-- C8 (amended): whenever some credential has an expired backoff,
get_next_api_key returns, without sleeping, a credential whose backoff has
expired, advancing the rotation index past it; and it sleeps only when
every credential is still cooling down.  (The part of the claim that the
function never returns a cooling credential is false: after sleeping it
returns the key at the rotation index without rechecking its backoff, see
the counterexample.) -/
theorem C8_amended (st : ApiState) (now : Nat)
    (hidx : st.currentKeyIndex < st.apiKeys.length) :
    ((∃ i, i < st.apiKeys.length ∧ lookupBackoff st.keyBackoffUntil i ≤ now) →
      ∃ idx, idx < st.apiKeys.length ∧ lookupBackoff st.keyBackoffUntil idx ≤ now ∧
        get_next_api_key st now
          = ⟨some (st.apiKeys.getD idx "", engineFor st.searchEngineIds idx, idx),
             (idx + 1) % st.apiKeys.length, none⟩)
    ∧ ((get_next_api_key st now).slept ≠ none →
        ∀ i, i < st.apiKeys.length → now < lookupBackoff st.keyBackoffUntil i) := by
  have hpos : 0 < st.apiKeys.length := lt_of_le_of_lt (Nat.zero_le _) hidx
  have hne : ¬ (st.apiKeys.isEmpty = true) := by
    rw [List.isEmpty_iff]
    intro h
    rw [h] at hpos
    simp at hpos
  constructor
  · intro ⟨i, hi, hle⟩
    obtain ⟨j, hj, hji⟩ := rotate_reach st.currentKeyIndex i st.apiKeys.length hidx hi
    have hsome := rotateTry_isSome st.apiKeys st.searchEngineIds st.keyBackoffUntil now
      st.apiKeys.length st.currentKeyIndex hidx ⟨j, hj, by rw [hji]; exact hle⟩
    obtain ⟨⟨k, cx, idx, cur2⟩, hrot⟩ := Option.isSome_iff_exists.mp hsome
    have hprops := rotateTry_some_props st.apiKeys st.searchEngineIds st.keyBackoffUntil now
      st.apiKeys.length st.currentKeyIndex hidx k cx idx cur2 hrot
    refine ⟨idx, hprops.1, hprops.2.1, ?_⟩
    unfold get_next_api_key
    rw [if_neg hne, hrot]
    rw [hprops.2.2.1, hprops.2.2.2.1, hprops.2.2.2.2]
  · intro hslept i hi
    by_contra hlt
    push_neg at hlt
    obtain ⟨j, hj, hji⟩ := rotate_reach st.currentKeyIndex i st.apiKeys.length hidx hi
    have hsome := rotateTry_isSome st.apiKeys st.searchEngineIds st.keyBackoffUntil now
      st.apiKeys.length st.currentKeyIndex hidx ⟨j, hj, by rw [hji]; exact hlt⟩
    obtain ⟨⟨k, cx, idx, cur2⟩, hrot⟩ := Option.isSome_iff_exists.mp hsome
    apply hslept
    unfold get_next_api_key
    rw [if_neg hne, hrot]

/-- Witness for C8: the amended theorem applied to a single ready key. -/
theorem C8_amended_witness :
    (∃ i, i < apiOneReady.apiKeys.length ∧ lookupBackoff apiOneReady.keyBackoffUntil i ≤ 7)
    ∧ ∃ idx, idx < apiOneReady.apiKeys.length
        ∧ lookupBackoff apiOneReady.keyBackoffUntil idx ≤ 7
        ∧ get_next_api_key apiOneReady 7
            = ⟨some (apiOneReady.apiKeys.getD idx "", engineFor apiOneReady.searchEngineIds idx,
                 idx), (idx + 1) % apiOneReady.apiKeys.length, none⟩ :=
  ⟨⟨0, by decide, by decide⟩,
    (C8_amended apiOneReady 7 (by decide)).1 ⟨0, by decide, by decide⟩⟩

/-! ## Claim C6: fetch exit status -/

/-- Collecting over adapters that all raised yields no results. -/
theorem foldl_collect_nil (scraped : List (Option (List Rec)))
    (h : ∀ r ∈ scraped, r = none) :
    ∀ acc, scraped.foldl (fun acc r => acc ++ r.getD []) acc = acc := by
  induction scraped with
  | nil => intro acc; rfl
  | cons r t ih =>
    intro acc
    rw [List.foldl_cons, h r (List.mem_cons_self _ _)]
    simp only [Option.getD_none, List.append_nil]
    exact ih (fun r' hr' => h r' (List.mem_cons_of_mem _ hr')) acc

/-- C6: the fetch run exits nonzero only when the final save on the
filtered data fails or nothing was collected to save; and when every
adapter fails entirely the run still prints the summary and exits zero. -/
theorem C6_fetch_exit (sv : Bool) (scraped : List (Option (List Rec))) (cfg : FetchCfg)
    (pa mo : Bool) (fs : FS) (fmt path : String) (app : Bool) :
    ((fetch_run sv scraped cfg pa mo fs fmt path app).exitCode ≠ 0 →
      (fetch_run sv scraped cfg pa mo fs fmt path app).collected = []
      ∨ (save_data pa mo fs
          (applyFetchFilters cfg (fetch_run sv scraped cfg pa mo fs fmt path app).collected)
          fmt (if path = "" then "data/tutors.csv" else path) true app).1 = false)
    ∧ (sv = true → (∀ r ∈ scraped, r = none) →
        (fetch_run sv scraped cfg pa mo fs fmt path app).exitCode = 0
        ∧ (fetch_run sv scraped cfg pa mo fs fmt path app).summaryPrinted = true) := by
  by_cases hsv : sv = true
  · subst hsv
    unfold fetch_run
    rw [if_neg (by simp)]
    by_cases he : (scraped.foldl (fun acc r => acc ++ r.getD []) []).isEmpty = true
    · rw [if_pos he]
      exact ⟨fun h => absurd rfl h, fun _ _ => ⟨rfl, rfl⟩⟩
    · rw [if_neg he]
      have hnall : ¬ (∀ r ∈ scraped, r = none) := by
        intro hall
        exact he (by rw [foldl_collect_nil scraped hall []]; rfl)
      by_cases hf : (applyFetchFilters cfg
          (scraped.foldl (fun acc r => acc ++ r.getD []) [])).isEmpty = true
      · rw [if_pos hf]
        exact ⟨fun h => absurd rfl h, fun _ hall => absurd hall hnall⟩
      · rw [if_neg hf]
        by_cases hok : (save_data pa mo fs
            (applyFetchFilters cfg (scraped.foldl (fun acc r => acc ++ r.getD []) []))
            fmt (if path = "" then "data/tutors.csv" else path) true app).1 = true
        · rw [if_pos hok]
          exact ⟨fun h => absurd rfl h, fun _ hall => absurd hall hnall⟩
        · rw [if_neg hok]
          refine ⟨fun _ => Or.inr ?_, fun _ hall => absurd hall hnall⟩
          simpa using hok
  · unfold fetch_run
    rw [if_pos hsv]
    exact ⟨fun _ => Or.inl rfl, fun h => absurd h hsv⟩

/-- Witness for C6: a run whose only adapter failed prints the summary and
exits zero. -/
theorem C6_fetch_exit_witness :
    (fetch_run true [none] ⟨true, 5, false, 100⟩ false false emptyFS "csv" "" false).exitCode = 0
    ∧ (fetch_run true [none] ⟨true, 5, false, 100⟩ false false emptyFS "csv" ""
        false).summaryPrinted = true :=
  (C6_fetch_exit true [none] ⟨true, 5, false, 100⟩ false false emptyFS "csv" "" false).2
    rfl (by simp)

/-! ## Claim C9: early stop and overshoot -/

/-- Once a nonempty prefix of batches brings the accumulator to the target,
the loop result does not depend on any later batch. -/
theorem bulkConsume_early_stop (cfg : BulkCfg) (st : BulkSt) (bs more : List (List Rec))
    (hne : bs ≠ [])
    (h : (bulkConsume cfg st bs).collected.length ≥ cfg.target) :
    bulkConsume cfg st (bs ++ more) = bulkConsume cfg st bs := by
  induction bs generalizing st with
  | nil => exact absurd rfl hne
  | cons b t ih =>
    rw [List.cons_append]
    unfold bulkConsume
    unfold bulkConsume at h
    by_cases hc : (bulkFlush cfg (b.foldl (bulkAccumulate cfg) st)).collected.length ≥ cfg.target
    · rw [if_pos hc, if_pos hc]
    · rw [if_neg hc, if_neg hc]
      rw [if_neg hc] at h
      cases t with
      | nil =>
        simp only [bulkConsume] at h
        exact absurd h hc
      | cons b' t' => exact ih _ (List.cons_ne_nil _ _) h

/-- C9: after the target is reached the orchestrator stops passing
subsequently completing batches through the filter/accumulate step; a
whole batch is accumulated before the target check, so the collected
count can overshoot the target; and the run persists every collected
listing, never truncating to the target. -/
theorem C9_early_stop_overshoot :
    (∀ (cfg : BulkCfg) (st : BulkSt) (b : List Rec) (bs more : List (List Rec)),
        (bulkConsume cfg st (b :: bs)).collected.length ≥ cfg.target →
        bulkConsume cfg st ((b :: bs) ++ more) = bulkConsume cfg st (b :: bs))
    ∧ cfgTargetOne.target = 1
    ∧ (bulkRun cfgTargetOne emptyFS [[tutorA, tutorB]]).collected.length = 2
    ∧ fileRows (bulkRun cfgTargetOne emptyFS [[tutorA, tutorB]]).fs "data/tutors.csv"
        = [tutorA, tutorB] := by
  refine ⟨fun cfg st b bs more h => bulkConsume_early_stop cfg st (b :: bs) more (by simp) h,
    rfl, ?_, ?_⟩
  · decide
  · decide

/-- Witness for C9: the early-stop conjunct applied to a concrete run that
reached its target after the first batch; the second batch is ignored. -/
theorem C9_early_stop_overshoot_witness :
    (bulkConsume cfgTargetOne (initBulkSt emptyFS) [[tutorA, tutorB]]).collected.length
      ≥ cfgTargetOne.target
    ∧ bulkConsume cfgTargetOne (initBulkSt emptyFS) ([[tutorA, tutorB]] ++ [[tutorRec]])
        = bulkConsume cfgTargetOne (initBulkSt emptyFS) [[tutorA, tutorB]] :=
  ⟨by decide,
    C9_early_stop_overshoot.1 cfgTargetOne (initBulkSt emptyFS) [tutorA, tutorB] [] [[tutorRec]]
      (by decide)⟩

/-! ## Claim C2: append-path idempotence -/

/-- _dedup_records is empty exactly on the empty list. -/
theorem dedup_records_eq_nil_iff (l : List Rec) : _dedup_records l = [] ↔ l = [] := by
  cases l with
  | nil => simp [_dedup_records, dedupGo]
  | cons x t =>
    constructor
    · intro h
      exact absurd h (dedup_records_ne_nil x t)
    · intro h
      cases h

/-- The CSV-module writer on a nonempty batch writes the sorted header and
the deduplicated rows. -/
theorem save_to_csv_csvmod (l : List Rec) (h : l ≠ []) :
    save_to_csv false l = some (csvOf l) := by
  unfold save_to_csv csvOf
  have hne : ¬ ((_dedup_records l).isEmpty = true) := by
    rw [List.isEmpty_iff, dedup_records_eq_nil_iff]
    exact h
  simp only [Bool.false_eq_true, if_false, hne]

/-- Reading after a write: the written file at its path, anything else
unchanged. -/
theorem readFile_writeFile (fs : FS) (p : String) (c : Csv) (q : String) :
    readFile (writeFile fs p c) q = if q = p then some c else readFile fs q := by
  by_cases h : q = p
  · subst h
    rw [if_pos rfl]
    exact readFile_writeFile_self fs q c
  · rw [if_neg h]
    exact readFile_writeFile_ne fs p q c h

/-- Row contents after a write. -/
theorem fileRows_writeFile (fs : FS) (p : String) (c : Csv) (q : String) :
    fileRows (writeFile fs p c) q = if q = p then c.rows else fileRows fs q := by
  unfold fileRows
  rw [readFile_writeFile]
  by_cases h : q = p <;> simp [h]

/-- The CSV branch of save_data over the default paths, as the two
role-table writes followed by the undivided write when the batch has
neither tutors nor students. -/
theorem save_data_csv_split (mo : Bool) (fs : FS) (data : List Rec) (hne : data ≠ []) :
    (save_data false mo fs data "csv" "data/tutors.csv" true true).2
      = if (tutorsOf data).isEmpty && (studentsOf data).isEmpty
        then writeFile (sdSteps fs data) "data/tutors.csv" (csvOf data)
        else sdSteps fs data := by
  have hde : ¬ (data.isEmpty = true) := by
    simp [List.isEmpty_iff, hne]
  have hrepl : strReplace "data/tutors.csv" "tutors" "students" = "data/students.csv" := by
    decide
  have hdne : _dedup_records data ≠ [] := by
    rw [ne_eq, dedup_records_eq_nil_iff]
    exact hne
  unfold save_data sdSteps csvOf
  simp only [tutorsOf, studentsOf, mergedTutors, mergedStudents]
  rw [if_neg hde]
  have hp1 : ("data/tutors.csv" = "") = False := eq_false (by decide)
  have hp2 : ("csv" = "csv") = True := eq_true rfl
  have hp3 : ("csv" = "both") = False := eq_false (by decide)
  have hp4 : ("csv" = "mongo") = False := eq_false (by decide)
  simp only [hp1, hp2, hp3, hp4, hrepl, true_or, false_or, or_false, or_self,
    if_true, if_false, ite_true, ite_false]
  set Tt := data.filter (fun p => strLower (getS p "role") = "tutor") with hTt
  set Ts := data.filter (fun p => strLower (getS p "role") = "student") with hTs
  set At := _dedup_records (fileRows fs "data/tutors.csv" ++ Tt) with hAt
  set As := _dedup_records (fileRows fs "data/students.csv" ++ Ts) with hAs
  have hidemT : _dedup_records At = At := hAt ▸ dedup_records_idem _
  have hidemS : _dedup_records As = As := hAs ▸ dedup_records_idem _
  have hidemD : _dedup_records (_dedup_records data) = _dedup_records data :=
    dedup_records_idem _
  by_cases hA : (Tt.isEmpty && Ts.isEmpty) = true
  · rw [if_pos hA, if_pos hA]
    by_cases hS : As.isEmpty = true
    · rw [if_pos hS, if_pos hS]
      by_cases hT : At.isEmpty = true
      · rw [if_pos hT, if_pos hT]
        simp only [save_to_csv_fs, save_to_csv_csvmod _ hdne, csvOf, hidemD]
      · rw [if_neg hT, if_neg hT]
        have hTn : At ≠ [] := fun h => hT (List.isEmpty_iff.mpr h)
        simp only [save_to_csv_fs, save_to_csv_csvmod _ hTn, save_to_csv_csvmod _ hdne,
          csvOf, hidemT, hidemD]
    · rw [if_neg hS, if_neg hS]
      have hSn : As ≠ [] := fun h => hS (List.isEmpty_iff.mpr h)
      by_cases hT : At.isEmpty = true
      · rw [if_pos hT, if_pos hT]
        simp only [save_to_csv_fs, save_to_csv_csvmod _ hSn, save_to_csv_csvmod _ hdne,
          csvOf, hidemS, hidemD]
      · rw [if_neg hT, if_neg hT]
        have hTn : At ≠ [] := fun h => hT (List.isEmpty_iff.mpr h)
        simp only [save_to_csv_fs, save_to_csv_csvmod _ hTn, save_to_csv_csvmod _ hSn,
          save_to_csv_csvmod _ hdne, csvOf, hidemT, hidemS, hidemD]
  · rw [if_neg hA, if_neg hA]
    by_cases hS : As.isEmpty = true
    · rw [if_pos hS, if_pos hS]
      by_cases hT : At.isEmpty = true
      · rw [if_pos hT, if_pos hT]
      · rw [if_neg hT, if_neg hT]
        have hTn : At ≠ [] := fun h => hT (List.isEmpty_iff.mpr h)
        simp only [save_to_csv_fs, save_to_csv_csvmod _ hTn, csvOf, hidemT]
    · rw [if_neg hS, if_neg hS]
      have hSn : As ≠ [] := fun h => hS (List.isEmpty_iff.mpr h)
      by_cases hT : At.isEmpty = true
      · rw [if_pos hT, if_pos hT]
        simp only [save_to_csv_fs, save_to_csv_csvmod _ hSn, csvOf, hidemS]
      · rw [if_neg hT, if_neg hT]
        have hTn : At ≠ [] := fun h => hT (List.isEmpty_iff.mpr h)
        simp only [save_to_csv_fs, save_to_csv_csvmod _ hTn, save_to_csv_csvmod _ hSn,
          csvOf, hidemT, hidemS]

/-- Reading any path after the two role-table writes. -/
theorem readFile_sdSteps (fs : FS) (data : List Rec) (q : String) :
    readFile (sdSteps fs data) q
      = if q = "data/students.csv" ∧ ¬ (mergedStudents fs data).isEmpty = true
        then some ⟨unionKeysSorted (mergedStudents fs data), mergedStudents fs data⟩
        else if q = "data/tutors.csv" ∧ ¬ (mergedTutors fs data).isEmpty = true
        then some ⟨unionKeysSorted (mergedTutors fs data), mergedTutors fs data⟩
        else readFile fs q := by
  unfold sdSteps
  by_cases hq1 : q = "data/students.csv" <;> by_cases hq2 : q = "data/tutors.csv"
  · exact absurd (hq1.symm.trans hq2) (by decide)
  all_goals
    by_cases hS : (mergedStudents fs data).isEmpty = true <;>
    by_cases hT : (mergedTutors fs data).isEmpty = true <;>
    simp [hS, hT, hq1, hq2, readFile_writeFile]

/-- The tutors file after the two role-table writes. -/
theorem fileRows_sdSteps_tutors (fs : FS) (data : List Rec) :
    fileRows (sdSteps fs data) "data/tutors.csv"
      = if (mergedTutors fs data).isEmpty = true then fileRows fs "data/tutors.csv"
        else mergedTutors fs data := by
  unfold fileRows
  rw [readFile_sdSteps]
  rw [if_neg (fun hc => absurd hc.1 (by decide))]
  by_cases hT : (mergedTutors fs data).isEmpty = true
  · rw [if_neg (fun hc => hc.2 hT), if_pos hT]
  · rw [if_pos ⟨rfl, hT⟩, if_neg hT]
    rfl

/-- The students file after the two role-table writes. -/
theorem fileRows_sdSteps_students (fs : FS) (data : List Rec) :
    fileRows (sdSteps fs data) "data/students.csv"
      = if (mergedStudents fs data).isEmpty = true then fileRows fs "data/students.csv"
        else mergedStudents fs data := by
  unfold fileRows
  rw [readFile_sdSteps]
  by_cases hS : (mergedStudents fs data).isEmpty = true
  · rw [if_neg (fun hc => hc.2 hS)]
    rw [if_neg (fun hc => absurd hc.1 (by decide))]
    rw [if_pos hS]
  · rw [if_pos ⟨rfl, hS⟩, if_neg hS]
    rfl

/-- An empty merged table means the existing file side and the new side are
both empty. -/
theorem mergedTutors_eq_nil (fs : FS) (data : List Rec)
    (h : mergedTutors fs data = []) :
    fileRows fs "data/tutors.csv" = [] ∧ tutorsOf data = [] := by
  unfold mergedTutors at h
  rw [dedup_records_eq_nil_iff, List.append_eq_nil] at h
  exact h

/-- As mergedTutors_eq_nil, for the student side. -/
theorem mergedStudents_eq_nil (fs : FS) (data : List Rec)
    (h : mergedStudents fs data = []) :
    fileRows fs "data/students.csv" = [] ∧ studentsOf data = [] := by
  unfold mergedStudents at h
  rw [dedup_records_eq_nil_iff, List.append_eq_nil] at h
  exact h

/-- Re-merging the same batch against the files the two role-table writes
produced changes nothing on the tutor side. -/
theorem mergedTutors_sdSteps (fs : FS) (data : List Rec) :
    mergedTutors (sdSteps fs data) data = mergedTutors fs data := by
  conv_lhs => rw [mergedTutors]
  rw [fileRows_sdSteps_tutors]
  by_cases hT : (mergedTutors fs data).isEmpty = true
  · rw [if_pos hT]
    rfl
  · rw [if_neg hT]
    conv_lhs => rw [mergedTutors]
    conv_rhs => rw [mergedTutors]
    exact dedup_records_absorb _ _

/-- As mergedTutors_sdSteps, for the student side. -/
theorem mergedStudents_sdSteps (fs : FS) (data : List Rec) :
    mergedStudents (sdSteps fs data) data = mergedStudents fs data := by
  conv_lhs => rw [mergedStudents]
  rw [fileRows_sdSteps_students]
  by_cases hS : (mergedStudents fs data).isEmpty = true
  · rw [if_pos hS]
    rfl
  · rw [if_neg hS]
    conv_lhs => rw [mergedStudents]
    conv_rhs => rw [mergedStudents]
    exact dedup_records_absorb _ _

/-- A write to the tutors file does not disturb the merged student table. -/
theorem mergedStudents_write_tutors (fs : FS) (c : Csv) (data : List Rec) :
    mergedStudents (writeFile fs "data/tutors.csv" c) data = mergedStudents fs data := by
  unfold mergedStudents
  rw [fileRows_writeFile, if_neg (by decide)]

/-- C2 is false as stated for the pandas writer: over a reachable
pre-existing tutors file (two link-less rows and one linked row), saving
the batch [tutorPipe] once leaves 2 rows, saving it twice leaves 3.  The
first save drops the second link-less row (pandas treats missing links as
equal duplicates) while the dedup key of tutorPipe collides with that
dropped row; on the second save the key is free again and the row comes
back. -/
theorem C2_counterexample :
    (fileRows (save_data true false fsPre [tutorPipe] "csv" "data/tutors.csv"
        true true).2 "data/tutors.csv").length = 2
    ∧ (fileRows (save_data true false
        (save_data true false fsPre [tutorPipe] "csv" "data/tutors.csv" true true).2
        [tutorPipe] "csv" "data/tutors.csv" true true).2 "data/tutors.csv").length = 3 := by
  constructor
  · decide
  · decide

/-- C2 (amended): under the CSV-module writer (pandas unavailable or
disabled), persisting the same batch twice through save_data in append
mode leaves every CSV file byte-identical to persisting it once, for any
prior file state; in particular the row counts agree.  The merge is: read
the existing rows, append the new tutor and student rows respectively,
and keep the first occurrence of each identity key. -/
theorem C2_amended (mo : Bool) (fs0 : FS) (batch : List Rec) (q : String) :
    readFile
        (save_data false mo
          (save_data false mo fs0 batch "csv" "data/tutors.csv" true true).2
          batch "csv" "data/tutors.csv" true true).2 q
      = readFile (save_data false mo fs0 batch "csv" "data/tutors.csv" true true).2 q := by
  by_cases hb : batch = []
  · subst hb
    rfl
  · rw [save_data_csv_split mo fs0 batch hb]
    rw [save_data_csv_split mo _ batch hb]
    by_cases hA : ((tutorsOf batch).isEmpty && (studentsOf batch).isEmpty) = true
    · rw [if_pos hA, if_pos hA]
      rw [readFile_writeFile]
      by_cases hq : q = "data/tutors.csv"
      · rw [if_pos hq, hq, readFile_writeFile_self]
      · rw [if_neg hq]
        rw [readFile_sdSteps]
        have hmS : mergedStudents
            (writeFile (sdSteps fs0 batch) "data/tutors.csv" (csvOf batch)) batch
            = mergedStudents fs0 batch := by
          rw [mergedStudents_write_tutors, mergedStudents_sdSteps]
        rw [hmS]
        by_cases hq1 : q = "data/students.csv"
        · by_cases hS : (mergedStudents fs0 batch).isEmpty = true
          · rw [if_neg (fun hc => hc.2 hS), if_neg (fun hc => hq hc.1)]
          · rw [if_pos ⟨hq1, hS⟩, hq1, readFile_writeFile_ne _ _ _ _ (by decide),
              readFile_sdSteps, if_pos ⟨rfl, hS⟩]
        · rw [if_neg (fun hc => hq1 hc.1), if_neg (fun hc => hq hc.1)]
    · rw [if_neg hA, if_neg hA]
      rw [readFile_sdSteps, mergedStudents_sdSteps, mergedTutors_sdSteps]
      by_cases hq1 : q = "data/students.csv"
      · by_cases hS : (mergedStudents fs0 batch).isEmpty = true
        · rw [if_neg (fun hc => hc.2 hS),
            if_neg (fun hc => absurd (hq1.symm.trans hc.1) (by decide))]
        · rw [if_pos ⟨hq1, hS⟩, readFile_sdSteps, if_pos ⟨hq1, hS⟩]
      · rw [if_neg (fun hc => hq1 hc.1)]
        by_cases hq2 : q = "data/tutors.csv"
        · by_cases hT : (mergedTutors fs0 batch).isEmpty = true
          · rw [if_neg (fun hc => hc.2 hT)]
          · rw [if_pos ⟨hq2, hT⟩, readFile_sdSteps, if_neg (fun hc => hq1 hc.1),
              if_pos ⟨hq2, hT⟩]
        · rw [if_neg (fun hc => hq2 hc.1)]

/-- Witness for C2: saving a concrete one-tutor batch twice from the empty
file system leaves the tutors file unchanged after the second save. -/
theorem C2_amended_witness :
    readFile
        (save_data false false
          (save_data false false emptyFS [tutorRec] "csv" "data/tutors.csv" true true).2
          [tutorRec] "csv" "data/tutors.csv" true true).2 "data/tutors.csv"
      = readFile (save_data false false emptyFS [tutorRec] "csv" "data/tutors.csv"
          true true).2 "data/tutors.csv" :=
  C2_amended false emptyFS [tutorRec] "data/tutors.csv"

/-! ## Claim C1: flush union -/

/-- The filters of save_data distribute over append. -/
theorem tutorsOf_append (a b : List Rec) : tutorsOf (a ++ b) = tutorsOf a ++ tutorsOf b := by
  unfold tutorsOf
  exact List.filter_append a b

/-- As tutorsOf_append, for the student side. -/
theorem studentsOf_append (a b : List Rec) :
    studentsOf (a ++ b) = studentsOf a ++ studentsOf b := by
  unfold studentsOf
  exact List.filter_append a b

/-- The per-profile accumulate step preserves the loop invariant, for any
incoming profile. -/
theorem bulkInv_accumulate (cfg : BulkCfg) (st : BulkSt) (p : Rec)
    (hinv : bulkInv st) : bulkInv (bulkAccumulate cfg st p) := by
  unfold bulkAccumulate
  by_cases h1 : (cfg.excludeStudents && (strLower (getS p "role") = "student")) = true
  · rwa [if_pos h1]
  · rw [if_neg h1]
    by_cases h2 : (cfg.indiaOnly && ¬ is_indian_profile p) = true
    · rwa [if_pos h2]
    · rw [if_neg h2]
      cases hexp : parse_experience_years (getS p "experience") with
      | none => exact hinv
      | some y =>
        dsimp only
        by_cases h3 : y ≥ cfg.maxExp
        · rwa [if_pos h3]
        · rw [if_neg h3]
          by_cases h4 : (profile_key p = "" || st.seenKeys.contains (profile_key p)) = true
          · rwa [if_pos h4]
          · rw [if_neg h4]
            simp only [Bool.or_eq_true, not_or, decide_eq_true_eq] at h4
            have hpk : profile_key p = key_fn p := rfl
            obtain ⟨hinv1, hinv2, hinv3, hinv4, hinv56⟩ := hinv
            have hk : key_fn p ∉ st.collected.map key_fn := by
              intro hmem
              rw [hpk] at h4
              exact h4.2 (by simpa using (hinv4 (key_fn p)).mpr hmem)
            refine ⟨?_, ?_, ?_, ?_, ?_⟩
            · simp only [List.length_append]
              omega
            · rw [List.take_append_of_le_length hinv1]
              exact hinv2
            · rw [List.map_append]
              simp only [List.nodup_append, List.map_cons, List.map_nil]
              exact ⟨hinv3, List.nodup_singleton _, by
                intro a ha hb
                simp only [List.mem_singleton] at hb
                exact hk (hb ▸ ha)⟩
            · intro k'
              simp only [List.mem_cons, List.map_append, List.mem_append, hinv4, hpk,
                List.map_cons, List.map_nil, List.mem_singleton]
              tauto
            · intro hr
              obtain ⟨h6, h7⟩ := hinv56
                (fun q hq => hr q (List.mem_append_left _ hq))
              constructor
              · rw [List.take_append_of_le_length hinv1]
                exact h6
              · rw [List.take_append_of_le_length hinv1]
                exact h7

/-- A flush preserves the invariant, marks everything saved, and leaves the
accumulator unchanged (default configuration: CSV output to the default
path with the CSV-module writer). -/
theorem bulkInv_doFlush (cfg : BulkCfg) (hfmt : cfg.outputFormat = "csv")
    (hpath : cfg.outputPath = "data/tutors.csv") (hpd : cfg.pandasAvail = false)
    (st : BulkSt) (hinv : bulkInv st) :
    bulkInv (doFlush cfg st)
    ∧ (doFlush cfg st).savedTotal = (doFlush cfg st).collected.length
    ∧ (doFlush cfg st).collected = st.collected := by
  obtain ⟨hinv1, hinv2, hinv3, hinv4, hinv56⟩ := hinv
  unfold doFlush
  rw [hfmt, hpath, hpd]
  by_cases hd : st.collected.drop st.savedTotal = []
  · have hsl : st.savedTotal = st.collected.length := by
      rw [List.drop_eq_nil_iff] at hd
      omega
    rw [hd]
    have hsv : save_data false cfg.mongoOk st.fs [] "csv" "data/tutors.csv" true true
        = (false, st.fs) := rfl
    rw [hsv]
    unfold bulkInv
    dsimp only
    refine ⟨⟨le_refl _, ?_, hinv3, hinv4, ?_⟩, rfl, rfl⟩
    · rw [List.flatten_append]
      simp only [List.flatten_cons, List.flatten_nil, List.append_nil]
      rw [hinv2, hsl]
    · intro hr
      obtain ⟨h6, h7⟩ := hinv56 hr
      exact ⟨by rw [h6, hsl], by rw [h7, hsl]⟩
  · rw [save_data_csv_split cfg.mongoOk st.fs _ hd]
    unfold bulkInv
    dsimp only
    refine ⟨⟨le_refl _, ?_, hinv3, hinv4, ?_⟩, rfl, rfl⟩
    · rw [List.flatten_append]
      simp only [List.flatten_cons, List.flatten_nil, List.append_nil]
      rw [hinv2, List.take_append_drop, List.take_length]
    · intro hr
      obtain ⟨h6, h7⟩ := hinv56 hr
      have hroleD : ∀ p ∈ st.collected.drop st.savedTotal,
          strLower (getS p "role") = "tutor" ∨ strLower (getS p "role") = "student" :=
        fun p hp => hr p (List.mem_of_mem_drop hp)
      have hAfalse : ¬ (((tutorsOf (st.collected.drop st.savedTotal)).isEmpty
          && (studentsOf (st.collected.drop st.savedTotal)).isEmpty) = true) := by
        intro hA
        simp only [Bool.and_eq_true, List.isEmpty_iff] at hA
        obtain ⟨x, rest, hx⟩ := List.exists_cons_of_ne_nil hd
        have hxmem : x ∈ st.collected.drop st.savedTotal := by
          rw [hx]
          exact List.mem_cons_self _ _
        rcases hroleD x hxmem with h | h
        · have hmem : x ∈ tutorsOf (st.collected.drop st.savedTotal) :=
            List.mem_filter.mpr ⟨hxmem, by simp [h]⟩
          rw [hA.1] at hmem
          simp at hmem
        · have hmem : x ∈ studentsOf (st.collected.drop st.savedTotal) :=
            List.mem_filter.mpr ⟨hxmem, by simp [h]⟩
          rw [hA.2] at hmem
          simp at hmem
      rw [if_neg hAfalse]
      have hmT : mergedTutors st.fs (st.collected.drop st.savedTotal)
          = tutorsOf st.collected := by
        unfold mergedTutors
        rw [h6, ← tutorsOf_append, List.take_append_drop]
        apply dedup_records_eq_self
        exact hinv3.sublist ((List.filter_sublist _).map key_fn)
      have hmS : mergedStudents st.fs (st.collected.drop st.savedTotal)
          = studentsOf st.collected := by
        unfold mergedStudents
        rw [h7, ← studentsOf_append, List.take_append_drop]
        apply dedup_records_eq_self
        exact hinv3.sublist ((List.filter_sublist _).map key_fn)
      constructor
      · rw [fileRows_sdSteps_tutors, hmT, List.take_length]
        by_cases hTe : (tutorsOf st.collected).isEmpty = true
        · rw [if_pos hTe, h6]
          rw [List.isEmpty_iff] at hTe
          have hsub : List.Sublist (tutorsOf (st.collected.take st.savedTotal))
              (tutorsOf st.collected) :=
            (List.take_sublist _ _).filter _
          rw [hTe] at hsub ⊢
          exact List.sublist_nil.mp hsub
        · rw [if_neg hTe]
      · rw [fileRows_sdSteps_students, hmS, List.take_length]
        by_cases hSe : (studentsOf st.collected).isEmpty = true
        · rw [if_pos hSe, h7]
          rw [List.isEmpty_iff] at hSe
          have hsub : List.Sublist (studentsOf (st.collected.take st.savedTotal))
              (studentsOf st.collected) :=
            (List.take_sublist _ _).filter _
          rw [hSe] at hsub ⊢
          exact List.sublist_nil.mp hsub
        · rw [if_neg hSe]

/-- Accumulating a whole batch preserves the invariant. -/
theorem bulkInv_foldl (cfg : BulkCfg) (b : List Rec) :
    ∀ st, bulkInv st → bulkInv (b.foldl (bulkAccumulate cfg) st) := by
  induction b with
  | nil => intro st h; exact h
  | cons p t ih =>
    intro st h
    rw [List.foldl_cons]
    exact ih _ (bulkInv_accumulate cfg st p h)

/-- The conditional periodic flush preserves the invariant and the
accumulator. -/
theorem bulkInv_bulkFlush (cfg : BulkCfg) (hfmt : cfg.outputFormat = "csv")
    (hpath : cfg.outputPath = "data/tutors.csv") (hpd : cfg.pandasAvail = false)
    (st : BulkSt) (hinv : bulkInv st) :
    bulkInv (bulkFlush cfg st) ∧ (bulkFlush cfg st).collected = st.collected := by
  unfold bulkFlush
  by_cases hc : st.collected.length - st.savedTotal ≥ cfg.flushEvery
  · rw [if_pos hc]
    exact ⟨(bulkInv_doFlush cfg hfmt hpath hpd st hinv).1,
      (bulkInv_doFlush cfg hfmt hpath hpd st hinv).2.2⟩
  · rw [if_neg hc]
    exact ⟨hinv, rfl⟩

/-- The consume loop preserves the invariant. -/
theorem bulkInv_consume (cfg : BulkCfg) (hfmt : cfg.outputFormat = "csv")
    (hpath : cfg.outputPath = "data/tutors.csv") (hpd : cfg.pandasAvail = false) :
    ∀ (batches : List (List Rec)) (st : BulkSt), bulkInv st →
      bulkInv (bulkConsume cfg st batches) := by
  intro batches
  induction batches with
  | nil => intro st h; exact h
  | cons b bs ih =>
    intro st h
    unfold bulkConsume
    have h1 := bulkInv_foldl cfg b st h
    have h2 := bulkInv_bulkFlush cfg hfmt hpath hpd _ h1
    by_cases hc : (bulkFlush cfg (b.foldl (bulkAccumulate cfg) st)).collected.length
        ≥ cfg.target
    · rw [if_pos hc]
      exact h2.1
    · rw [if_neg hc]
      exact ih _ h2.1

/-- A whole bulk run from the empty file system satisfies the invariant,
with everything flushed at the end. -/
theorem bulkInv_run (cfg : BulkCfg) (hfmt : cfg.outputFormat = "csv")
    (hpath : cfg.outputPath = "data/tutors.csv") (hpd : cfg.pandasAvail = false)
    (batches : List (List Rec)) :
    bulkInv (bulkRun cfg emptyFS batches)
    ∧ (bulkRun cfg emptyFS batches).savedTotal
        = (bulkRun cfg emptyFS batches).collected.length := by
  have hinit : bulkInv (initBulkSt emptyFS) := by
    refine ⟨le_refl _, rfl, by simp [initBulkSt], by simp [initBulkSt],
      fun _ => ⟨rfl, rfl⟩⟩
  have hcons := bulkInv_consume cfg hfmt hpath hpd batches (initBulkSt emptyFS) hinit
  unfold bulkRun bulkFinal
  by_cases hc : (bulkConsume cfg (initBulkSt emptyFS) batches).collected.length
      > (bulkConsume cfg (initBulkSt emptyFS) batches).savedTotal
  · rw [if_pos hc]
    exact ⟨(bulkInv_doFlush cfg hfmt hpath hpd _ hcons).1,
      (bulkInv_doFlush cfg hfmt hpath hpd _ hcons).2.1⟩
  · rw [if_neg hc]
    refine ⟨hcons, ?_⟩
    have := hcons.1
    omega

/-- C1 is false as stated: a flush holding a Tutor listing alongside an
Unknown-role listing persists only the Tutor through the role-splitting
writer; the Unknown listing is accumulated but appears in no written file
(the only file ever written is the tutors file and it holds only the
Tutor row). -/
theorem C1_counterexample :
    (bulkRun cfgFlushOne emptyFS [[tutorRec, unknownRec]]).collected
        = [tutorRec, unknownRec]
    ∧ fileRows (bulkRun cfgFlushOne emptyFS [[tutorRec, unknownRec]]).fs "data/tutors.csv"
        = [tutorRec]
    ∧ (bulkRun cfgFlushOne emptyFS [[tutorRec, unknownRec]]).fs.files.map Prod.fst
        = ["data/tutors.csv"] := by
  refine ⟨by decide, by decide, by decide⟩

/-- C1 (amended): over the default bulk configuration (CSV output to the
default path, CSV-module writer, fresh output directory), for every
sequence of delivered batches the slices handed to the periodic flushes
plus the final flush concatenate to exactly the accumulated
filter-surviving deduplicated listings; and provided every accumulated
listing is classified Tutor or Student, the rows persisted in the two
role files are a permutation of the accumulated listings: none dropped,
none duplicated. -/
theorem C1_amended (cfg : BulkCfg) (batches : List (List Rec))
    (hfmt : cfg.outputFormat = "csv") (hpath : cfg.outputPath = "data/tutors.csv")
    (hpd : cfg.pandasAvail = false) :
    (bulkRun cfg emptyFS batches).flushed.flatten = (bulkRun cfg emptyFS batches).collected
    ∧ ((∀ p ∈ (bulkRun cfg emptyFS batches).collected,
          strLower (getS p "role") = "tutor" ∨ strLower (getS p "role") = "student") →
        List.Perm
          (fileRows (bulkRun cfg emptyFS batches).fs "data/tutors.csv"
            ++ fileRows (bulkRun cfg emptyFS batches).fs "data/students.csv")
          (bulkRun cfg emptyFS batches).collected) := by
  obtain ⟨hinv, hsl⟩ := bulkInv_run cfg hfmt hpath hpd batches
  obtain ⟨h1, h2, h3, h4, h56⟩ := hinv
  constructor
  · rw [h2, hsl, List.take_length]
  · intro hr
    obtain ⟨h6, h7⟩ := h56 hr
    rw [h6, h7, hsl, List.take_length]
    have hcongr : studentsOf (bulkRun cfg emptyFS batches).collected
        = List.filter (fun p => !(decide (strLower (getS p "role") = "tutor")))
            (bulkRun cfg emptyFS batches).collected := by
      unfold studentsOf
      apply List.filter_congr
      intro x hx
      rcases hr x hx with h | h <;> simp [h]
    rw [hcongr]
    unfold tutorsOf
    exact List.filter_append_perm _ _

/-- Witness for C1: the amended theorem applied to a concrete one-batch run
of two tutors, exercising both the unconditional flush-concatenation part
and, through the role side condition on the accumulated listings, the
persisted-permutation part. -/
theorem C1_amended_witness :
    (bulkRun cfgFlushOne emptyFS [[tutorA, tutorB]]).flushed.flatten
        = (bulkRun cfgFlushOne emptyFS [[tutorA, tutorB]]).collected
    ∧ List.Perm
        (fileRows (bulkRun cfgFlushOne emptyFS [[tutorA, tutorB]]).fs "data/tutors.csv"
          ++ fileRows (bulkRun cfgFlushOne emptyFS [[tutorA, tutorB]]).fs "data/students.csv")
        (bulkRun cfgFlushOne emptyFS [[tutorA, tutorB]]).collected :=
  ⟨(C1_amended cfgFlushOne [[tutorA, tutorB]] rfl rfl rfl).1,
    (C1_amended cfgFlushOne [[tutorA, tutorB]] rfl rfl rfl).2 (by decide)⟩

